import Mathlib

/-!
Shallow embedding of the dappServer transfer-coordination subsystem
(`server/transfer_manager.go`, `database/db.go`, `server/helpers.go`).

Go channels of capacity one are modelled by an explicit channel heap
(`List (Nat × ChanState)`): each `RegisterPendingRequest` allocates a fresh
channel id.  The registry mutex makes every operation an atomic step on the
state, so operations are modelled as pure state transformers; concurrent
invocations serialize in some order and both orders are covered by the
theorems.  The SQLite table `transfer_status` is modelled as a list of rows;
`time.Now()` is passed in explicitly as a `Nat` number of seconds.
-/

/-- `CallbackResponse` from transfer_manager.go (the `Data` payload is opaque
`interface\x7b\x7d` in Go and is never inspected; it is modelled as an opaque
string option). -/
structure CallbackResponse where
  Success : Bool
  Message : String
  Data : Option String := none
  Error : String := ""
  BlockId : String := ""
  ContractData : String := ""
  deriving DecidableEq, Repr

/-- State of a buffered Go channel of capacity 1 (the delivery slot).
`closedFull` is a channel that was sent one value and then closed: the
receiver obtains the value and then observes closure.  Closing an
already-closed channel panics in Go; the model is only ever applied to open
channels (proved where used). -/
inductive ChanState where
  | empty : ChanState
  | full (v : CallbackResponse) : ChanState
  | closed : ChanState
  | closedFull (v : CallbackResponse) : ChanState
  deriving DecidableEq, Repr

/-- `PendingRequest` from transfer_manager.go: `ResponseChan` is a channel id
into the channel heap. -/
structure PendingRequest where
  TransactionID : String
  ResponseChan : Nat
  CreatedAt : Nat
  deriving DecidableEq, Repr

/-- `TransferStatus` row from database/db.go. -/
structure TransferStatus where
  RequestID : String
  BlockId : String
  ActivityIDs : List String
  UserDID : String
  AdminDID : String
  RewardPoints : Int
  Status : String
  Message : String
  ContractHash : String
  ErrorDetails : String
  CreatedAt : Nat
  UpdatedAt : Nat
  deriving DecidableEq, Repr

/-- The `map[string]interface\x7b\x7d` updates accepted by
`UpdateTransferStatus`: only the keys `block_id`, `status`, `message`,
`error_details` are consulted by the Go code. -/
structure StatusUpdates where
  block_id : Option String := none
  status : Option String := none
  message : Option String := none
  error_details : Option String := none
  deriving DecidableEq, Repr

/-- `TransferManager` state: the blockId-keyed pending map, the channel heap
with its allocation counter, and the durable `transfer_status` table.  The
`pendingMu` mutex is modelled by each operation being one atomic step. -/
structure TransferManager where
  pendingByBlockId : List (String × PendingRequest)
  chans : List (Nat × ChanState)
  nextChan : Nat
  db : List TransferStatus
  deriving DecidableEq, Repr

/-- Association-list lookup for the pending map (`m.pendingByBlockId[blockId]`). -/
def lookupPending (l : List (String × PendingRequest)) (k : String) : Option PendingRequest :=
  (l.find? (fun p => p.1 == k)).map Prod.snd

/-- `delete(m.pendingByBlockId, blockId)`. -/
def erasePending (l : List (String × PendingRequest)) (k : String) : List (String × PendingRequest) :=
  l.filter (fun p => p.1 != k)

/-- Map write `m.pendingByBlockId[blockId] = req` (replaces any existing entry). -/
def insertPending (l : List (String × PendingRequest)) (k : String) (v : PendingRequest) :
    List (String × PendingRequest) :=
  (k, v) :: erasePending l k

/-- Channel-heap lookup. -/
def chanLookup (cs : List (Nat × ChanState)) (cid : Nat) : Option ChanState :=
  (cs.find? (fun q => q.1 == cid)).map Prod.snd

/-- Overwrite the state of channel `cid` in the heap. -/
def chanSet (cs : List (Nat × ChanState)) (cid : Nat) (st : ChanState) : List (Nat × ChanState) :=
  cs.map (fun q => if q.1 == cid then (q.1, st) else q)

/-- Go `close(ch)`.  A buffered value survives closing; closing an
already-closed channel panics in Go and never happens in reachable states, so
the model leaves a closed channel unchanged. -/
def closeChan : ChanState → ChanState
  | ChanState.empty => ChanState.closed
  | ChanState.full v => ChanState.closedFull v
  | ChanState.closed => ChanState.closed
  | ChanState.closedFull v => ChanState.closedFull v

/-- `close(req.ResponseChan)` on the heap. -/
def chanClose (cs : List (Nat × ChanState)) (cid : Nat) : List (Nat × ChanState) :=
  cs.map (fun q => if q.1 == cid then (q.1, closeChan q.2) else q)

/-! ## database/db.go -/

/-- Apply the supplied partial fields to one row and refresh `updated_at`,
mirroring the dynamic `UPDATE transfer_status SET updated_at = ?, ...` query
built in `UpdateTransferStatus`. -/
def applyUpdates (u : StatusUpdates) (now : Nat) (r : TransferStatus) : TransferStatus :=
  let r1 := { r with UpdatedAt := now }
  let r2 := match u.block_id with
    | some b => { r1 with BlockId := b }
    | none => r1
  let r3 := match u.status with
    | some st => { r2 with Status := st }
    | none => r2
  let r4 := match u.message with
    | some m => { r3 with Message := m }
    | none => r3
  match u.error_details with
    | some e => { r4 with ErrorDetails := e }
    | none => r4

/-- `UpdateTransferStatus(requestID, updates)`: updates every row matching
`request_id` (the primary key makes it at most one in practice) and returns
`transfer not found` when zero rows are affected. -/
def UpdateTransferStatus (db : List TransferStatus) (requestID : String) (u : StatusUpdates)
    (now : Nat) : Except String (List TransferStatus) :=
  let db2 := db.map (fun r => if r.RequestID == requestID then applyUpdates u now r else r)
  if db.any (fun r => r.RequestID == requestID) then Except.ok db2
  else Except.error "transfer not found"

/-- `GetTransferStatus(requestID)`: first row matching `request_id`, or
`transfer not found`. -/
def GetTransferStatus (db : List TransferStatus) (requestID : String) :
    Except String TransferStatus :=
  match db.find? (fun r => r.RequestID == requestID) with
  | some r => Except.ok r
  | none => Except.error "transfer not found"

/-- `GetTransferStatusByBlockId(blockId)`: first row matching `block_id`, or
`transfer not found`. -/
def GetTransferStatusByBlockId (db : List TransferStatus) (blockId : String) :
    Except String TransferStatus :=
  match db.find? (fun r => r.BlockId == blockId) with
  | some r => Except.ok r
  | none => Except.error "transfer not found"

/-! ## server/transfer_manager.go -/

/-- The updates map built in `SendCallbackResponse` / `updateStatusByBlockId`:
`message` always; `status = success` on success, otherwise `status = failed`
with `error_details` from the response. -/
def callbackUpdates (response : CallbackResponse) : StatusUpdates :=
  if response.Success then
    { message := some response.Message, status := some "success" }
  else
    { message := some response.Message, status := some "failed",
      error_details := some response.Error }

/-- `RegisterPendingRequest(transactionID, blockId)`: allocates a fresh
buffered channel of capacity 1 and stores the entry under `blockId`
(overwriting any existing entry, as a Go map assignment does); returns the
new state and the channel id handed back to the caller. -/
def RegisterPendingRequest (s : TransferManager) (transactionID blockId : String) (now : Nat) :
    TransferManager × Nat :=
  let cid := s.nextChan
  ({ s with
      chans := (cid, ChanState.empty) :: s.chans,
      nextChan := cid + 1,
      pendingByBlockId := insertPending s.pendingByBlockId blockId
        { TransactionID := transactionID, ResponseChan := cid, CreatedAt := now } },
   cid)

/-- `updateStatusByBlockId(blockId, response)`: fallback for late callbacks;
looks up the row by `block_id` and updates it by its `request_id`.  DB errors
are logged and leave the table unchanged. -/
def updateStatusByBlockId (db : List TransferStatus) (blockId : String)
    (response : CallbackResponse) (now : Nat) : List TransferStatus :=
  match GetTransferStatusByBlockId db blockId with
  | Except.error _ => db
  | Except.ok status =>
      match UpdateTransferStatus db status.RequestID (callbackUpdates response) now with
      | Except.ok db2 => db2
      | Except.error _ => db

/-- `SendCallbackResponse(blockId, response)`: if a pending entry exists,
update the DB by its `TransactionID` (failures only logged), then try the
non-blocking send; on success send+close the channel, delete the entry and
return `true`; if the channel cannot take the value (`select` default
branch) delete the entry and return `false`.  With no pending entry, fall
back to `updateStatusByBlockId` and return `false`. -/
def SendCallbackResponse (s : TransferManager) (blockId : String) (response : CallbackResponse)
    (now : Nat) : TransferManager × Bool :=
  match lookupPending s.pendingByBlockId blockId with
  | some req =>
      let db2 := match UpdateTransferStatus s.db req.TransactionID (callbackUpdates response) now with
        | Except.ok d => d
        | Except.error _ => s.db
      match chanLookup s.chans req.ResponseChan with
      | some ChanState.empty =>
          ({ s with
              db := db2,
              chans := chanSet s.chans req.ResponseChan (ChanState.closedFull response),
              pendingByBlockId := erasePending s.pendingByBlockId blockId },
           true)
      | _ =>
          ({ s with
              db := db2,
              pendingByBlockId := erasePending s.pendingByBlockId blockId },
           false)
  | none =>
      ({ s with db := updateStatusByBlockId s.db blockId response now }, false)

/-- `MarkTimeout(transactionID, blockId)`: writes `status = timeout` with the
fixed message; on a DB error it returns the error at once (the pending entry
is NOT cleaned up on that path); on success it closes and removes the
pending entry when present.  Returns the new state and the error, if any. -/
def MarkTimeout (s : TransferManager) (transactionID blockId : String) (now : Nat) :
    TransferManager × Option String :=
  match UpdateTransferStatus s.db transactionID
      { status := some "timeout",
        message := some "Transfer confirmation timed out (blockchain may still be processing)" }
      now with
  | Except.error e => (s, some ("failed to mark timeout in DB: " ++ e))
  | Except.ok db2 =>
      match lookupPending s.pendingByBlockId blockId with
      | some req =>
          ({ s with
              db := db2,
              chans := chanClose s.chans req.ResponseChan,
              pendingByBlockId := erasePending s.pendingByBlockId blockId },
           none)
      | none => ({ s with db := db2 }, none)

/-- Reaper TTL: `10*time.Minute`, in seconds. -/
def staleTTL : Nat := 10 * 60

/-- Reaper period: the `time.NewTicker(2 * time.Minute)` interval, in seconds. -/
def reapPeriod : Nat := 2 * 60

/-- `now.Sub(req.CreatedAt) > 10*time.Minute`. -/
def staleAt (now : Nat) (req : PendingRequest) : Bool :=
  staleTTL < now - req.CreatedAt

/-- One reaper cycle of `cleanupStaleRequests` at time `now`: under the lock,
every entry older than the TTL has its channel closed and is removed.  Go map
iteration order is irrelevant: each stale entry is deleted and its own
channel closed exactly once. -/
def cleanupStaleRequests (s : TransferManager) (now : Nat) : TransferManager :=
  { s with
    pendingByBlockId := s.pendingByBlockId.filter (fun p => !(staleAt now p.2)),
    chans := s.chans.map (fun q =>
      if s.pendingByBlockId.any (fun p => staleAt now p.2 && p.2.ResponseChan == q.1)
      then (q.1, closeChan q.2) else q) }

/-- `GetPendingCount()`. -/
def GetPendingCount (s : TransferManager) : Nat :=
  s.pendingByBlockId.length

/-! ## server/helpers.go -/

/-- Modelled from the spec: one element of `SCTDataReply` in the smart-contract
data reply.  The type declaration is outside the provided sources; only the
`BlockId` field is consumed by `ExtractLatestBlockId`. -/
structure SCTDataReplyElem where
  BlockId : String
  deriving DecidableEq, Repr

/-- Modelled from the spec: the `SmartContractDataReply` parsed by
`ExtractLatestBlockId`; its declaration is outside the provided sources. -/
structure SmartContractDataReply where
  SCTDataReply : List SCTDataReplyElem
  deriving DecidableEq, Repr

/-- `ExtractLatestBlockId(contractHash, nodeURL)`.  The outbound
`GetSmartContractData` fetch and the subsequent `json.Unmarshal` are external
effects, passed in as their combined outcome: `none` models a nil fetch
result, `some (Except.error e)` an unmarshal failure, `some (Except.ok d)` a
parsed reply.  The final index `SCTDataReply[len-1]` is taken via `getLast?`
behind the emptiness check. -/
def ExtractLatestBlockId (fetched : Option (Except String SmartContractDataReply)) :
    Except String String :=
  match fetched with
  | none => Except.error "failed to fetch smart contract data"
  | some (Except.error e) => Except.error ("failed to unmarshal smart contract data: " ++ e)
  | some (Except.ok dataReply) =>
      match dataReply.SCTDataReply.getLast? with
      | none => Except.error "no blocks found in smart contract data"
      | some latestBlock =>
          if latestBlock.BlockId == "" then Except.error "block ID is empty"
          else Except.ok latestBlock.BlockId

/-! ## Registry well-formedness

Reachable registry states satisfy: every pending entry's channel exists in
the heap, is open and empty (a fresh capacity-1 buffer nobody has written);
channel ids are below the allocation counter; distinct entries own distinct
channels and distinct keys. -/

/-- Well-formedness of the in-memory registry, satisfied by every reachable
state: fresh empty slots, fresh allocator, distinct ownership. -/
def GoodRegistry (s : TransferManager) : Prop :=
  (∀ p ∈ s.pendingByBlockId, chanLookup s.chans p.2.ResponseChan = some ChanState.empty) ∧
  (∀ q ∈ s.chans, q.1 < s.nextChan) ∧
  s.pendingByBlockId.Pairwise (fun p q => p.2.ResponseChan ≠ q.2.ResponseChan) ∧
  s.pendingByBlockId.Pairwise (fun p q => p.1 ≠ q.1)

instance (s : TransferManager) : Decidable (GoodRegistry s) := by
  unfold GoodRegistry
  infer_instance

/-- The three removal paths that may resolve a registry entry for one
blockID: a matching callback (`SendCallbackResponse`), an explicit timeout
(`MarkTimeout`, here named cancel), and one reaper cycle. -/
inductive RemovalOp where
  | deliver (response : CallbackResponse) : RemovalOp
  | cancel (transactionID : String) : RemovalOp
  | reap : RemovalOp

/-- Run one removal path against the state; each holds the registry mutex so
it is one atomic step, and concurrent invocations serialize in some order. -/
def runRemoval (bid : String) (now : Nat) (op : RemovalOp) (s : TransferManager) :
    TransferManager :=
  match op with
  | RemovalOp.deliver response => (SendCallbackResponse s bid response now).1
  | RemovalOp.cancel tid => (MarkTimeout s tid bid now).1
  | RemovalOp.reap => cleanupStaleRequests s now

/-- The row fields outside status/message/error_details/updated_at agree. -/
def FramePreserved (r r2 : TransferStatus) : Prop :=
  r2.RequestID = r.RequestID ∧ r2.BlockId = r.BlockId ∧
  r2.ActivityIDs = r.ActivityIDs ∧ r2.UserDID = r.UserDID ∧
  r2.AdminDID = r.AdminDID ∧ r2.RewardPoints = r.RewardPoints ∧
  r2.ContractHash = r.ContractHash ∧ r2.CreatedAt = r.CreatedAt

/-- A concrete row used by witnesses. -/
def sampleRow : TransferStatus :=
  { RequestID := "T1", BlockId := "B1", ActivityIDs := ["a1"], UserDID := "did:user",
    AdminDID := "did:admin", RewardPoints := 10, Status := "pending",
    Message := "Transfer initiated, waiting for blockchain confirmation",
    ContractHash := "hash1", ErrorDetails := "", CreatedAt := 0, UpdatedAt := 0 }

/-! ## Helper lemmas on the registry map and the channel heap -/

theorem lookupPending_eq_none_iff (l : List (String × PendingRequest)) (k : String) :
    lookupPending l k = none ↔ ∀ p ∈ l, p.1 ≠ k := by
  simp [lookupPending, List.find?_eq_none, beq_iff_eq]

theorem lookupPending_insert_self (l : List (String × PendingRequest)) (k : String)
    (v : PendingRequest) : lookupPending (insertPending l k v) k = some v := by
  rw [lookupPending, insertPending, List.find?_cons]
  simp

theorem lookupPending_insert_ne (l : List (String × PendingRequest)) (k k2 : String)
    (v : PendingRequest) (h : k2 ≠ k) :
    lookupPending (insertPending l k v) k2 = lookupPending (erasePending l k) k2 := by
  rw [lookupPending, insertPending, List.find?_cons]
  have hb : (k == k2) = false := by simp; exact fun hc => h hc.symm
  simp [hb]
  rfl

theorem lookupPending_erase_self (l : List (String × PendingRequest)) (k : String) :
    lookupPending (erasePending l k) k = none := by
  rw [lookupPending_eq_none_iff]
  intro p hp
  have hm := List.mem_filter.mp hp
  simpa [bne_iff_ne] using hm.2

theorem lookupPending_erase_ne (l : List (String × PendingRequest)) (k k2 : String)
    (h : k2 ≠ k) : lookupPending (erasePending l k) k2 = lookupPending l k2 := by
  induction l with
  | nil => rfl
  | cons p t ih =>
      simp only [lookupPending, erasePending] at ih ⊢
      rw [List.filter_cons]
      by_cases hp : p.1 = k
      · have h1 : (p.1 != k) = false := by simp [hp]
        have h2 : (p.1 == k2) = false := by simp [hp]; exact fun hc => h hc.symm
        rw [List.find?_cons]
        simp only [h1, h2]
        exact ih
      · have h1 : (p.1 != k) = true := by simp [bne_iff_ne, hp]
        simp only [h1, if_true]
        rw [List.find?_cons, List.find?_cons]
        by_cases h2 : p.1 = k2
        · have h3 : (p.1 == k2) = true := by simp [h2]
          simp only [h3]
        · have h3 : (p.1 == k2) = false := by simp [h2]
          simp only [h3]
          exact ih

theorem lookupPending_mem (l : List (String × PendingRequest)) (k : String)
    (req : PendingRequest) (h : lookupPending l k = some req) : (k, req) ∈ l := by
  induction l with
  | nil => simp [lookupPending] at h
  | cons p t ih =>
      rw [lookupPending, List.find?_cons] at h
      by_cases hp : p.1 = k
      · have h3 : (p.1 == k) = true := by simp [hp]
        simp only [h3] at h
        have hpk : p = (k, req) := by
          cases p with
          | mk a b => simp_all
        rw [← hpk]
        exact List.mem_cons_self p t
      · have h3 : (p.1 == k) = false := by simp [hp]
        simp only [h3] at h
        exact List.mem_cons_of_mem p (ih h)

theorem lookupPending_filter_none (l : List (String × PendingRequest)) (k : String)
    (f : String × PendingRequest → Bool) (h : lookupPending l k = none) :
    lookupPending (l.filter f) k = none := by
  rw [lookupPending_eq_none_iff] at h ⊢
  exact fun p hp => h p (List.mem_of_mem_filter hp)

theorem lookupPending_of_mem_nodup (l : List (String × PendingRequest))
    (p : String × PendingRequest) (hnd : l.Pairwise (fun a b => a.1 ≠ b.1)) (hmem : p ∈ l) :
    lookupPending l p.1 = some p.2 := by
  induction l with
  | nil => simp at hmem
  | cons q t ih =>
      rw [lookupPending, List.find?_cons]
      rcases List.mem_cons.mp hmem with h | h
      · have h3 : (q.1 == p.1) = true := by simp [h]
        simp only [h3]
        simp [h]
      · have hq : q.1 ≠ p.1 := (List.pairwise_cons.mp hnd).1 p h
        have h3 : (q.1 == p.1) = false := by simp [hq]
        simp only [h3]
        exact ih (List.pairwise_cons.mp hnd).2 h

theorem chanLookup_cons_self (cs : List (Nat × ChanState)) (cid : Nat) (st : ChanState) :
    chanLookup ((cid, st) :: cs) cid = some st := by
  rw [chanLookup, List.find?_cons]
  simp

theorem chanLookup_cons_ne (cs : List (Nat × ChanState)) (cid c : Nat) (st : ChanState)
    (h : c ≠ cid) : chanLookup ((cid, st) :: cs) c = chanLookup cs c := by
  rw [chanLookup, List.find?_cons]
  have hb : (cid == c) = false := by simp; exact fun hc => h hc.symm
  simp only [hb]
  rfl

theorem chanLookup_map_keyfix (cs : List (Nat × ChanState))
    (g : Nat × ChanState → Nat × ChanState) (hk : ∀ q, (g q).1 = q.1) (cid : Nat) :
    chanLookup (cs.map g) cid = ((cs.find? (fun q => q.1 == cid)).map g).map Prod.snd := by
  rw [chanLookup, List.find?_map]
  have hp : ((fun q : Nat × ChanState => q.1 == cid) ∘ g) = (fun q => q.1 == cid) := by
    funext q
    simp [Function.comp, hk q]
  rw [hp]

theorem chanLookup_chanSet_self (cs : List (Nat × ChanState)) (cid : Nat) (st : ChanState) :
    chanLookup (chanSet cs cid st) cid = (chanLookup cs cid).map (fun _ => st) := by
  rw [chanSet, chanLookup_map_keyfix]
  · cases hf : cs.find? (fun q => q.1 == cid) with
    | none => simp [chanLookup, hf]
    | some q0 =>
        have hq := List.find?_some hf
        simp only [beq_iff_eq] at hq
        simp [chanLookup, hf, hq]
  · intro q
    by_cases h : q.1 = cid <;> simp [h]

theorem chanLookup_chanSet_ne (cs : List (Nat × ChanState)) (cid c : Nat) (st : ChanState)
    (h : c ≠ cid) : chanLookup (chanSet cs cid st) c = chanLookup cs c := by
  rw [chanSet, chanLookup_map_keyfix]
  · cases hf : cs.find? (fun q => q.1 == c) with
    | none => simp [chanLookup, hf]
    | some q0 =>
        have hq := List.find?_some hf
        simp only [beq_iff_eq] at hq
        have hb : q0.1 ≠ cid := by simp [hq, h]
        simp [chanLookup, hf, hb]
  · intro q
    by_cases hh : q.1 = cid <;> simp [hh]

theorem chanLookup_chanClose_self (cs : List (Nat × ChanState)) (cid : Nat) :
    chanLookup (chanClose cs cid) cid = (chanLookup cs cid).map closeChan := by
  rw [chanClose, chanLookup_map_keyfix]
  · cases hf : cs.find? (fun q => q.1 == cid) with
    | none => simp [chanLookup, hf]
    | some q0 =>
        have hq := List.find?_some hf
        simp only [beq_iff_eq] at hq
        simp [chanLookup, hf, hq]
  · intro q
    by_cases h : q.1 = cid <;> simp [h]

theorem chanLookup_chanClose_ne (cs : List (Nat × ChanState)) (cid c : Nat)
    (h : c ≠ cid) : chanLookup (chanClose cs cid) c = chanLookup cs c := by
  rw [chanClose, chanLookup_map_keyfix]
  · cases hf : cs.find? (fun q => q.1 == c) with
    | none => simp [chanLookup, hf]
    | some q0 =>
        have hq := List.find?_some hf
        simp only [beq_iff_eq] at hq
        have hb : q0.1 ≠ cid := by simp [hq, h]
        simp [chanLookup, hf, hb]
  · intro q
    by_cases hh : q.1 = cid <;> simp [hh]

theorem chanLookup_map_closeIf (cs : List (Nat × ChanState)) (b : Nat → Bool) (cid : Nat) :
    chanLookup (cs.map (fun q => if b q.1 then (q.1, closeChan q.2) else q)) cid =
      if b cid then (chanLookup cs cid).map closeChan else chanLookup cs cid := by
  rw [chanLookup_map_keyfix]
  · cases hf : cs.find? (fun q => q.1 == cid) with
    | none => by_cases hb : b cid <;> simp [chanLookup, hf, hb]
    | some q0 =>
        have hq := List.find?_some hf
        simp only [beq_iff_eq] at hq
        by_cases hb : b cid <;> simp [chanLookup, hf, hq, hb]
  · intro q
    by_cases h : b q.1 <;> simp [h]

/-! ## Helper lemmas on the status store -/

theorem applyUpdates_fields (u : StatusUpdates) (now : Nat) (r : TransferStatus) :
    (applyUpdates u now r).RequestID = r.RequestID ∧
    (applyUpdates u now r).BlockId = u.block_id.getD r.BlockId ∧
    (applyUpdates u now r).ActivityIDs = r.ActivityIDs ∧
    (applyUpdates u now r).UserDID = r.UserDID ∧
    (applyUpdates u now r).AdminDID = r.AdminDID ∧
    (applyUpdates u now r).RewardPoints = r.RewardPoints ∧
    (applyUpdates u now r).Status = u.status.getD r.Status ∧
    (applyUpdates u now r).Message = u.message.getD r.Message ∧
    (applyUpdates u now r).ContractHash = r.ContractHash ∧
    (applyUpdates u now r).ErrorDetails = u.error_details.getD r.ErrorDetails ∧
    (applyUpdates u now r).CreatedAt = r.CreatedAt ∧
    (applyUpdates u now r).UpdatedAt = now := by
  obtain ⟨ub, us, um, ue⟩ := u
  cases ub <;> cases us <;> cases um <;> cases ue <;> simp [applyUpdates]

theorem updateTransferStatus_found (db : List TransferStatus) (rid : String)
    (u : StatusUpdates) (now : Nat) (h : ∃ r ∈ db, r.RequestID = rid) :
    UpdateTransferStatus db rid u now =
      Except.ok (db.map fun r => if r.RequestID == rid then applyUpdates u now r else r) := by
  obtain ⟨r, hr, he⟩ := h
  have ha : db.any (fun r => r.RequestID == rid) = true := by
    rw [List.any_eq_true]
    exact ⟨r, hr, by simp [he]⟩
  simp [UpdateTransferStatus, ha]

theorem updateTransferStatus_notfound (db : List TransferStatus) (rid : String)
    (u : StatusUpdates) (now : Nat) (h : ∀ r ∈ db, r.RequestID ≠ rid) :
    UpdateTransferStatus db rid u now = Except.error "transfer not found" := by
  have ha : db.any (fun r => r.RequestID == rid) = false := by
    rw [List.any_eq_false]
    intro r hr
    simp [h r hr]
  simp [UpdateTransferStatus, ha]

theorem find_after_update (db : List TransferStatus) (rid : String) (u : StatusUpdates)
    (now : Nat) :
    (db.map fun r => if r.RequestID == rid then applyUpdates u now r else r).find?
        (fun r => r.RequestID == rid) =
      (db.find? (fun r => r.RequestID == rid)).map (applyUpdates u now) := by
  rw [List.find?_map]
  have hp : ((fun r : TransferStatus => r.RequestID == rid) ∘
      (fun r => if r.RequestID == rid then applyUpdates u now r else r)) =
      (fun r : TransferStatus => r.RequestID == rid) := by
    funext r
    by_cases h : r.RequestID = rid
    · simp [Function.comp, h, (applyUpdates_fields u now r).1]
    · simp [Function.comp, h]
  rw [hp]
  cases hf : db.find? (fun r => r.RequestID == rid) with
  | none => rfl
  | some r0 =>
      have h0 := List.find?_some hf
      simp only [beq_iff_eq] at h0
      simp [h0]

theorem getTransferStatus_after_update (db : List TransferStatus) (rid : String)
    (u : StatusUpdates) (now : Nat) (row : TransferStatus)
    (h : GetTransferStatus db rid = Except.ok row) :
    GetTransferStatus
        (db.map fun r => if r.RequestID == rid then applyUpdates u now r else r) rid =
      Except.ok (applyUpdates u now row) := by
  have hf : db.find? (fun r => r.RequestID == rid) = some row := by
    unfold GetTransferStatus at h
    cases hff : db.find? (fun r => r.RequestID == rid) with
    | none => rw [hff] at h; exact absurd h (by simp)
    | some r0 => rw [hff] at h; simp at h; rw [h]
  unfold GetTransferStatus
  rw [find_after_update, hf]
  rfl

theorem getTransferStatus_mem (db : List TransferStatus) (rid : String)
    (row : TransferStatus) (h : GetTransferStatus db rid = Except.ok row) :
    row ∈ db ∧ row.RequestID = rid := by
  unfold GetTransferStatus at h
  cases hff : db.find? (fun r => r.RequestID == rid) with
  | none => rw [hff] at h; exact absurd h (by simp)
  | some r0 =>
      rw [hff] at h
      simp at h
      subst h
      refine ⟨List.mem_of_find?_eq_some hff, ?_⟩
      have := List.find?_some hff
      simpa using this

theorem getTransferStatusByBlockId_mem (db : List TransferStatus) (bid : String)
    (row : TransferStatus) (h : GetTransferStatusByBlockId db bid = Except.ok row) :
    row ∈ db ∧ row.BlockId = bid := by
  unfold GetTransferStatusByBlockId at h
  cases hff : db.find? (fun r => r.BlockId == bid) with
  | none => rw [hff] at h; exact absurd h (by simp)
  | some r0 =>
      rw [hff] at h
      simp at h
      subst h
      refine ⟨List.mem_of_find?_eq_some hff, ?_⟩
      have := List.find?_some hff
      simpa using this

/-! ## Claim theorems -/

/-- C10: `ExtractLatestBlockId` never returns an empty block identifier with a
nil error: a nil fetch, an unmarshal failure, an empty block list, and an
empty `BlockId` on the latest block each yield an error, and otherwise the
non-empty `BlockId` of the latest block is returned. -/
theorem extractLatestBlockId_never_ok_empty :
    (ExtractLatestBlockId none = Except.error "failed to fetch smart contract data") ∧
    (∀ e, ExtractLatestBlockId (some (Except.error e)) =
      Except.error ("failed to unmarshal smart contract data: " ++ e)) ∧
    (∀ d : SmartContractDataReply, d.SCTDataReply = [] →
      ExtractLatestBlockId (some (Except.ok d)) =
        Except.error "no blocks found in smart contract data") ∧
    (∀ (d : SmartContractDataReply) (b : SCTDataReplyElem),
      d.SCTDataReply.getLast? = some b → b.BlockId = "" →
      ExtractLatestBlockId (some (Except.ok d)) = Except.error "block ID is empty") ∧
    (∀ (d : SmartContractDataReply) (b : SCTDataReplyElem),
      d.SCTDataReply.getLast? = some b → b.BlockId ≠ "" →
      ExtractLatestBlockId (some (Except.ok d)) = Except.ok b.BlockId) ∧
    (∀ fetched bid, ExtractLatestBlockId fetched = Except.ok bid → bid ≠ "") := by
  refine ⟨rfl, fun e => rfl, ?_, ?_, ?_, ?_⟩
  · intro d hd
    simp [ExtractLatestBlockId, hd]
  · intro d b hb he
    simp [ExtractLatestBlockId, hb, he]
  · intro d b hb he
    simp [ExtractLatestBlockId, hb, he]
  · intro fetched bid h
    match fetched with
    | none => simp [ExtractLatestBlockId] at h
    | some (Except.error e) => simp [ExtractLatestBlockId] at h
    | some (Except.ok d) =>
        simp only [ExtractLatestBlockId] at h
        cases hl : d.SCTDataReply.getLast? with
        | none => rw [hl] at h; exact absurd h (by simp)
        | some b =>
            rw [hl] at h
            by_cases he : b.BlockId = ""
            · simp [he] at h
            · simp [he] at h
              rw [← h]
              exact he

/-- C10 witness: a reply whose latest block carries `"B9"` gives `.ok "B9"`,
a non-empty identifier. -/
theorem extractLatestBlockId_never_ok_empty_witness :
    ExtractLatestBlockId (some (Except.ok ⟨[⟨"B9"⟩]⟩)) = Except.ok "B9" ∧
    ("B9" : String) ≠ "" := by
  refine ⟨extractLatestBlockId_never_ok_empty.2.2.2.2.1 ⟨[⟨"B9"⟩]⟩ ⟨"B9"⟩ rfl (by decide), ?_⟩
  exact extractLatestBlockId_never_ok_empty.2.2.2.2.2 (some (Except.ok ⟨[⟨"B9"⟩]⟩)) "B9"
    (extractLatestBlockId_never_ok_empty.2.2.2.2.1 ⟨[⟨"B9"⟩]⟩ ⟨"B9"⟩ rfl (by decide))


/-- C8: `UpdateTransferStatus` applies only the supplied fields among
status/message/error_details/block_id, leaves every other field of every row
unchanged, always refreshes `updated_at`, and fails with `transfer not found`
when no row with the requestID exists. -/
theorem updateTransferStatus_partial_update_spec (db : List TransferStatus) (rid : String)
    (u : StatusUpdates) (now : Nat) :
    ((∀ r ∈ db, r.RequestID ≠ rid) →
      UpdateTransferStatus db rid u now = Except.error "transfer not found") ∧
    ((∃ r ∈ db, r.RequestID = rid) →
      ∃ db2, UpdateTransferStatus db rid u now = Except.ok db2 ∧
        db2.length = db.length ∧
        ∀ (i : Nat) (r : TransferStatus), db[i]? = some r →
          ((r.RequestID ≠ rid → db2[i]? = some r) ∧
           (r.RequestID = rid →
             ∃ r2, db2[i]? = some r2 ∧
               r2.UpdatedAt = now ∧
               r2.Status = u.status.getD r.Status ∧
               r2.Message = u.message.getD r.Message ∧
               r2.ErrorDetails = u.error_details.getD r.ErrorDetails ∧
               r2.BlockId = u.block_id.getD r.BlockId ∧
               r2.RequestID = r.RequestID ∧
               r2.ActivityIDs = r.ActivityIDs ∧
               r2.UserDID = r.UserDID ∧
               r2.AdminDID = r.AdminDID ∧
               r2.RewardPoints = r.RewardPoints ∧
               r2.ContractHash = r.ContractHash ∧
               r2.CreatedAt = r.CreatedAt))) := by
  constructor
  · exact updateTransferStatus_notfound db rid u now
  · intro h
    refine ⟨db.map fun r => if r.RequestID == rid then applyUpdates u now r else r,
      updateTransferStatus_found db rid u now h, by simp, ?_⟩
    intro i r hi
    have hmap : (db.map fun r => if r.RequestID == rid then applyUpdates u now r else r)[i]? =
        some (if r.RequestID == rid then applyUpdates u now r else r) := by
      rw [List.getElem?_map, hi]
      rfl
    constructor
    · intro hne
      rw [hmap]
      simp [hne]
    · intro heq
      refine ⟨applyUpdates u now r, ?_, ?_⟩
      · rw [hmap]
        simp [heq]
      · obtain ⟨h1, h2, h3, h4, h5, h6, h7, h8, h9, h10, h11, h12⟩ := applyUpdates_fields u now r
        exact ⟨h12, h7, h8, h10, h2, h1, h3, h4, h5, h6, h9, h11⟩

/-- C8 witness: on a one-row table, an unknown requestID fails with
`transfer not found` and the row's requestID succeeds. -/
theorem updateTransferStatus_partial_update_spec_witness :
    (UpdateTransferStatus [sampleRow] "TX" { status := some "failed" } 5 =
      Except.error "transfer not found") ∧
    (∃ db2, UpdateTransferStatus [sampleRow] "T1" { status := some "failed" } 5 =
      Except.ok db2) := by
  constructor
  · exact (updateTransferStatus_partial_update_spec [sampleRow] "TX"
      { status := some "failed" } 5).1 (by decide)
  · obtain ⟨db2, hdb2, -⟩ := (updateTransferStatus_partial_update_spec [sampleRow] "T1"
      { status := some "failed" } 5).2 ⟨sampleRow, by simp, by decide⟩
    exact ⟨db2, hdb2⟩

/-- C1 counterexample: with an entry already registered for blockID `B1`,
`RegisterPendingRequest` does not fail with AlreadyRegistered: it hands out a
fresh delivery-slot handle (channel 1) and replaces the existing entry
(transactionID `T1`, channel 0) with the new one. -/
theorem register_existing_not_rejected_cex :
    lookupPending
        ((RegisterPendingRequest
            ⟨[("B1", ⟨"T1", 0, 0⟩)], [(0, ChanState.empty)], 1, []⟩ "T2" "B1" 5).1).pendingByBlockId
        "B1" = some ⟨"T2", 1, 5⟩ ∧
    (RegisterPendingRequest
        ⟨[("B1", ⟨"T1", 0, 0⟩)], [(0, ChanState.empty)], 1, []⟩ "T2" "B1" 5).2 = 1 ∧
    some (⟨"T2", 1, 5⟩ : PendingRequest) ≠ some (⟨"T1", 0, 0⟩ : PendingRequest) := by
  refine ⟨?_, rfl, by decide⟩
  decide

/-- C1 (amended): `RegisterPendingRequest` never fails.  For every state and
blockID — also one that is already registered — it stores a new entry with a
fresh empty delivery slot under the blockID, replacing any existing entry,
returns the fresh slot handle, and leaves other keys and the store untouched. -/
theorem registerPendingRequest_always_succeeds (s : TransferManager)
    (tid bid : String) (now : Nat) :
    (RegisterPendingRequest s tid bid now).2 = s.nextChan ∧
    lookupPending (RegisterPendingRequest s tid bid now).1.pendingByBlockId bid =
      some ⟨tid, s.nextChan, now⟩ ∧
    chanLookup (RegisterPendingRequest s tid bid now).1.chans s.nextChan =
      some ChanState.empty ∧
    (∀ k, k ≠ bid →
      lookupPending (RegisterPendingRequest s tid bid now).1.pendingByBlockId k =
        lookupPending s.pendingByBlockId k) ∧
    (RegisterPendingRequest s tid bid now).1.db = s.db := by
  refine ⟨rfl, ?_, ?_, ?_, rfl⟩
  · simp only [RegisterPendingRequest]
    exact lookupPending_insert_self _ _ _
  · simp only [RegisterPendingRequest]
    exact chanLookup_cons_self _ _ _
  · intro k hk
    simp only [RegisterPendingRequest]
    rw [lookupPending_insert_ne _ _ _ _ hk, lookupPending_erase_ne _ _ _ hk]

/-- C1 witness: registering `B1` in the empty registry leaves key `B2` unbound. -/
theorem registerPendingRequest_always_succeeds_witness :
    lookupPending ((RegisterPendingRequest ⟨[], [], 0, []⟩ "T1" "B1" 3).1).pendingByBlockId "B2" =
      lookupPending ([] : List (String × PendingRequest)) "B2" :=
  (registerPendingRequest_always_succeeds ⟨[], [], 0, []⟩ "T1" "B1" 3).2.2.2.1 "B2" (by decide)

theorem callbackUpdates_fields (response : CallbackResponse) :
    (callbackUpdates response).status = some (if response.Success then "success" else "failed") ∧
    (callbackUpdates response).message = some response.Message ∧
    (callbackUpdates response).block_id = none ∧
    ((callbackUpdates response).error_details =
      if response.Success then none else some response.Error) := by
  cases hr : response.Success <;> simp [callbackUpdates, hr]

theorem getTransferStatus_isSome (db : List TransferStatus) (rid : String)
    (h : ∃ r ∈ db, r.RequestID = rid) :
    ∃ row, GetTransferStatus db rid = Except.ok row := by
  unfold GetTransferStatus
  cases hf : db.find? (fun r => r.RequestID == rid) with
  | some r0 => exact ⟨r0, rfl⟩
  | none =>
      rw [List.find?_eq_none] at hf
      obtain ⟨r, hr, he⟩ := h
      exact absurd (by simp [he]) (hf r hr)

theorem sendCallbackResponse_db_entry (s : TransferManager) (bid : String)
    (response : CallbackResponse) (now : Nat) (req : PendingRequest)
    (dbU : List TransferStatus)
    (hreq : lookupPending s.pendingByBlockId bid = some req)
    (hok : UpdateTransferStatus s.db req.TransactionID (callbackUpdates response) now =
      Except.ok dbU) :
    (SendCallbackResponse s bid response now).1.db = dbU := by
  simp only [SendCallbackResponse, hreq, hok]
  cases hc : chanLookup s.chans req.ResponseChan with
  | none => simp [hc]
  | some st => cases st <;> simp [hc]

/-- C2: `SendCallbackResponse` updates the durable status row — by the
registered transactionID when a pending entry exists, otherwise by looking
the row up by blockID — and in either path the row's status becomes
`success` when the result succeeded, and otherwise `failed` with
`error_details` set from the result's error. -/
theorem sendCallbackResponse_updates_row (s : TransferManager) (bid : String)
    (response : CallbackResponse) (now : Nat) :
    (∀ req row, lookupPending s.pendingByBlockId bid = some req →
      GetTransferStatus s.db req.TransactionID = Except.ok row →
      ∃ row2, GetTransferStatus (SendCallbackResponse s bid response now).1.db
          req.TransactionID = Except.ok row2 ∧
        row2.Status = (if response.Success then "success" else "failed") ∧
        (response.Success = false → row2.ErrorDetails = response.Error)) ∧
    (∀ row, lookupPending s.pendingByBlockId bid = none →
      GetTransferStatusByBlockId s.db bid = Except.ok row →
      ∃ row2, GetTransferStatus (SendCallbackResponse s bid response now).1.db
          row.RequestID = Except.ok row2 ∧
        row2.Status = (if response.Success then "success" else "failed") ∧
        (response.Success = false → row2.ErrorDetails = response.Error)) := by
  constructor
  · intro req row hreq hrow
    have hex : ∃ r ∈ s.db, r.RequestID = req.TransactionID := by
      obtain ⟨hm, he⟩ := getTransferStatus_mem s.db req.TransactionID row hrow
      exact ⟨row, hm, he⟩
    have hok := updateTransferStatus_found s.db req.TransactionID
      (callbackUpdates response) now hex
    have hdb := sendCallbackResponse_db_entry s bid response now req _ hreq hok
    refine ⟨applyUpdates (callbackUpdates response) now row, ?_, ?_, ?_⟩
    · rw [hdb]
      exact getTransferStatus_after_update s.db req.TransactionID
        (callbackUpdates response) now row hrow
    · have h7 := (applyUpdates_fields (callbackUpdates response) now row).2.2.2.2.2.2.1
      rw [h7, (callbackUpdates_fields response).1]
      rfl
    · intro hs
      have h10 :=
        (applyUpdates_fields (callbackUpdates response) now row).2.2.2.2.2.2.2.2.2.1
      rw [h10, (callbackUpdates_fields response).2.2.2, hs]
      rfl
  · intro row hnone hbrow
    obtain ⟨hm, hbe⟩ := getTransferStatusByBlockId_mem s.db bid row hbrow
    have hex : ∃ r ∈ s.db, r.RequestID = row.RequestID := ⟨row, hm, rfl⟩
    have hok := updateTransferStatus_found s.db row.RequestID
      (callbackUpdates response) now hex
    obtain ⟨row1, hrow1⟩ := getTransferStatus_isSome s.db row.RequestID hex
    have hdb : (SendCallbackResponse s bid response now).1.db =
        s.db.map fun r => if r.RequestID == row.RequestID then
          applyUpdates (callbackUpdates response) now r else r := by
      simp only [SendCallbackResponse, hnone, updateStatusByBlockId, hbrow, hok]
    refine ⟨applyUpdates (callbackUpdates response) now row1, ?_, ?_, ?_⟩
    · rw [hdb]
      exact getTransferStatus_after_update s.db row.RequestID
        (callbackUpdates response) now row1 hrow1
    · have h7 := (applyUpdates_fields (callbackUpdates response) now row1).2.2.2.2.2.2.1
      rw [h7, (callbackUpdates_fields response).1]
      rfl
    · intro hs
      have h10 :=
        (applyUpdates_fields (callbackUpdates response) now row1).2.2.2.2.2.2.2.2.2.1
      rw [h10, (callbackUpdates_fields response).2.2.2, hs]
      rfl

/-- C2 witness: a failed callback for `B1` with a registered entry for `T1`
lands `failed`/error-details on row `T1`; the same with no entry lands via
the blockID fallback. -/
theorem sendCallbackResponse_updates_row_witness :
    (∃ row2, GetTransferStatus
        (SendCallbackResponse ⟨[("B1", ⟨"T1", 0, 0⟩)], [(0, ChanState.empty)], 1, [sampleRow]⟩
          "B1" { Success := false, Message := "boom", Error := "E" } 9).1.db "T1" =
        Except.ok row2 ∧
      row2.Status = (if (false : Bool) then "success" else "failed") ∧
      ((false : Bool) = false → row2.ErrorDetails = "E")) ∧
    (∃ row2, GetTransferStatus
        (SendCallbackResponse ⟨[], [], 0, [sampleRow]⟩
          "B1" { Success := false, Message := "boom", Error := "E" } 9).1.db "T1" =
        Except.ok row2 ∧
      row2.Status = (if (false : Bool) then "success" else "failed") ∧
      ((false : Bool) = false → row2.ErrorDetails = "E")) := by
  constructor
  · exact (sendCallbackResponse_updates_row
      ⟨[("B1", ⟨"T1", 0, 0⟩)], [(0, ChanState.empty)], 1, [sampleRow]⟩
      "B1" { Success := false, Message := "boom", Error := "E" } 9).1
      ⟨"T1", 0, 0⟩ sampleRow (by decide) (by rfl)
  · exact (sendCallbackResponse_updates_row ⟨[], [], 0, [sampleRow]⟩
      "B1" { Success := false, Message := "boom", Error := "E" } 9).2
      sampleRow (by decide) (by rfl)

/-- C3: when an entry exists for the blockID and its slot is the single-use
empty channel that registration created, `SendCallbackResponse` removes the
entry, places the result into the slot (send + close) and returns `true`;
when no entry exists it returns `false` without touching registry or slots. -/
theorem sendCallbackResponse_deliver_semantics (s : TransferManager) (bid : String)
    (response : CallbackResponse) (now : Nat) :
    (∀ req, lookupPending s.pendingByBlockId bid = some req →
      chanLookup s.chans req.ResponseChan = some ChanState.empty →
      (SendCallbackResponse s bid response now).2 = true ∧
      lookupPending (SendCallbackResponse s bid response now).1.pendingByBlockId bid = none ∧
      chanLookup (SendCallbackResponse s bid response now).1.chans req.ResponseChan =
        some (ChanState.closedFull response)) ∧
    (lookupPending s.pendingByBlockId bid = none →
      (SendCallbackResponse s bid response now).2 = false ∧
      (SendCallbackResponse s bid response now).1.pendingByBlockId = s.pendingByBlockId ∧
      (SendCallbackResponse s bid response now).1.chans = s.chans) := by
  constructor
  · intro req hreq hchan
    refine ⟨?_, ?_, ?_⟩
    · simp [SendCallbackResponse, hreq, hchan]
    · simp only [SendCallbackResponse, hreq, hchan]
      exact lookupPending_erase_self _ _
    · simp only [SendCallbackResponse, hreq, hchan]
      rw [chanLookup_chanSet_self, hchan]
      rfl
  · intro hnone
    refine ⟨?_, ?_, ?_⟩ <;> simp [SendCallbackResponse, hnone]

/-- C3 witness: delivering to a registered `B1` succeeds and empties the
registry slot; delivering to unregistered `B2` returns `false` and changes
nothing in memory. -/
theorem sendCallbackResponse_deliver_semantics_witness :
    ((SendCallbackResponse ⟨[("B1", ⟨"T1", 0, 0⟩)], [(0, ChanState.empty)], 1, [sampleRow]⟩
        "B1" { Success := true, Message := "ok" } 9).2 = true ∧
      lookupPending (SendCallbackResponse
        ⟨[("B1", ⟨"T1", 0, 0⟩)], [(0, ChanState.empty)], 1, [sampleRow]⟩
        "B1" { Success := true, Message := "ok" } 9).1.pendingByBlockId "B1" = none ∧
      chanLookup (SendCallbackResponse
        ⟨[("B1", ⟨"T1", 0, 0⟩)], [(0, ChanState.empty)], 1, [sampleRow]⟩
        "B1" { Success := true, Message := "ok" } 9).1.chans 0 =
        some (ChanState.closedFull { Success := true, Message := "ok" })) ∧
    ((SendCallbackResponse ⟨[], [], 0, []⟩ "B2" { Success := true, Message := "ok" } 9).2 =
      false) := by
  constructor
  · exact (sendCallbackResponse_deliver_semantics
      ⟨[("B1", ⟨"T1", 0, 0⟩)], [(0, ChanState.empty)], 1, [sampleRow]⟩
      "B1" { Success := true, Message := "ok" } 9).1 ⟨"T1", 0, 0⟩ (by decide) (by decide)
  · exact ((sendCallbackResponse_deliver_semantics ⟨[], [], 0, []⟩
      "B2" { Success := true, Message := "ok" } 9).2 (by decide)).1

/-- C4 counterexample: with a pending entry for `B1` but no row `T1` in the
store, the store write fails and `MarkTimeout` returns the error at once —
the pending entry is left registered and its slot still open, so the
in-memory resolution does NOT proceed on a store-write failure. -/
theorem markTimeout_db_failure_keeps_entry_cex :
    (MarkTimeout ⟨[("B1", ⟨"T1", 0, 0⟩)], [(0, ChanState.empty)], 1, []⟩ "T1" "B1" 5).2 ≠
      none ∧
    lookupPending (MarkTimeout ⟨[("B1", ⟨"T1", 0, 0⟩)], [(0, ChanState.empty)], 1, []⟩
        "T1" "B1" 5).1.pendingByBlockId "B1" = some ⟨"T1", 0, 0⟩ ∧
    chanLookup (MarkTimeout ⟨[("B1", ⟨"T1", 0, 0⟩)], [(0, ChanState.empty)], 1, []⟩
        "T1" "B1" 5).1.chans 0 = some ChanState.empty := by
  decide

/-- C4 (amended): when the store write succeeds, `MarkTimeout` sets the row
to `timeout` with the fixed message and closes/removes the pending entry for
the blockID; when the store write fails, it returns the error and leaves the
state — including the pending entry — untouched. -/
theorem markTimeout_semantics (s : TransferManager) (tid bid : String) (now : Nat) :
    ((∃ r ∈ s.db, r.RequestID = tid) →
      (MarkTimeout s tid bid now).2 = none ∧
      (∃ row2, GetTransferStatus (MarkTimeout s tid bid now).1.db tid = Except.ok row2 ∧
        row2.Status = "timeout" ∧
        row2.Message =
          "Transfer confirmation timed out (blockchain may still be processing)") ∧
      lookupPending (MarkTimeout s tid bid now).1.pendingByBlockId bid = none ∧
      (∀ req, lookupPending s.pendingByBlockId bid = some req →
        chanLookup (MarkTimeout s tid bid now).1.chans req.ResponseChan =
          (chanLookup s.chans req.ResponseChan).map closeChan)) ∧
    ((∀ r ∈ s.db, r.RequestID ≠ tid) →
      MarkTimeout s tid bid now =
        (s, some ("failed to mark timeout in DB: " ++ "transfer not found"))) := by
  constructor
  · intro hex
    have hok := updateTransferStatus_found s.db tid
      { status := some "timeout",
        message :=
          some "Transfer confirmation timed out (blockchain may still be processing)" }
      now hex
    obtain ⟨row1, hrow1⟩ := getTransferStatus_isSome s.db tid hex
    have hget := getTransferStatus_after_update s.db tid
      { status := some "timeout",
        message :=
          some "Transfer confirmation timed out (blockchain may still be processing)" }
      now row1 hrow1
    cases hl : lookupPending s.pendingByBlockId bid with
    | some req =>
        simp only [MarkTimeout, hok, hl]
        refine ⟨trivial, ⟨_, hget, ?_, ?_⟩, ?_, ?_⟩
        · exact (applyUpdates_fields _ now row1).2.2.2.2.2.2.1
        · exact (applyUpdates_fields _ now row1).2.2.2.2.2.2.2.1
        · exact lookupPending_erase_self _ _
        · intro req2 hreq2
          have h2 : req2 = req := (Option.some.inj hreq2).symm
          subst h2
          exact chanLookup_chanClose_self _ _
    | none =>
        simp only [MarkTimeout, hok, hl]
        refine ⟨trivial, ⟨_, hget, ?_, ?_⟩, trivial, ?_⟩
        · exact (applyUpdates_fields _ now row1).2.2.2.2.2.2.1
        · exact (applyUpdates_fields _ now row1).2.2.2.2.2.2.2.1
        · intro req2 hreq2
          simp at hreq2
  · intro hne
    have herr := updateTransferStatus_notfound s.db tid
      { status := some "timeout",
        message :=
          some "Transfer confirmation timed out (blockchain may still be processing)" }
      now hne
    simp only [MarkTimeout, herr]

/-- C4 witness: with row `T1` present the timeout write succeeds and the
entry is resolved; with unknown `TX` the call returns the wrapped NotFound
error and the state unchanged. -/
theorem markTimeout_semantics_witness :
    ((MarkTimeout ⟨[("B1", ⟨"T1", 0, 0⟩)], [(0, ChanState.empty)], 1, [sampleRow]⟩
        "T1" "B1" 7).2 = none) ∧
    (MarkTimeout ⟨[("B1", ⟨"T1", 0, 0⟩)], [(0, ChanState.empty)], 1, [sampleRow]⟩
        "TX" "B1" 7 =
      (⟨[("B1", ⟨"T1", 0, 0⟩)], [(0, ChanState.empty)], 1, [sampleRow]⟩,
        some ("failed to mark timeout in DB: " ++ "transfer not found"))) := by
  constructor
  · exact ((markTimeout_semantics
      ⟨[("B1", ⟨"T1", 0, 0⟩)], [(0, ChanState.empty)], 1, [sampleRow]⟩
      "T1" "B1" 7).1 ⟨sampleRow, by simp, by decide⟩).1
  · exact (markTimeout_semantics
      ⟨[("B1", ⟨"T1", 0, 0⟩)], [(0, ChanState.empty)], 1, [sampleRow]⟩
      "TX" "B1" 7).2 (by decide)

/-- C9: on an empty registry, register followed immediately by deliver for
the same blockID yields exactly one successful delivery — deliver returns
`true` and the result sits in the slot that register handed out — and leaves
the registry empty. -/
theorem register_then_deliver_once (s : TransferManager) (tid bid : String)
    (response : CallbackResponse) (now1 now2 : Nat)
    (hempty : s.pendingByBlockId = []) :
    (SendCallbackResponse (RegisterPendingRequest s tid bid now1).1 bid response now2).2 =
      true ∧
    chanLookup (SendCallbackResponse (RegisterPendingRequest s tid bid now1).1 bid
        response now2).1.chans (RegisterPendingRequest s tid bid now1).2 =
      some (ChanState.closedFull response) ∧
    (SendCallbackResponse (RegisterPendingRequest s tid bid now1).1 bid
        response now2).1.pendingByBlockId = [] := by
  have hreq : lookupPending (RegisterPendingRequest s tid bid now1).1.pendingByBlockId bid =
      some ⟨tid, s.nextChan, now1⟩ := by
    simp only [RegisterPendingRequest]
    exact lookupPending_insert_self _ _ _
  have hchan : chanLookup (RegisterPendingRequest s tid bid now1).1.chans s.nextChan =
      some ChanState.empty := by
    simp only [RegisterPendingRequest]
    exact chanLookup_cons_self _ _ _
  refine ⟨?_, ?_, ?_⟩
  · simp [SendCallbackResponse, hreq, hchan]
  · simp only [SendCallbackResponse, hreq, hchan]
    have h2 : (RegisterPendingRequest s tid bid now1).2 = s.nextChan := rfl
    rw [h2, chanLookup_chanSet_self, hchan]
    rfl
  · simp only [SendCallbackResponse, hreq, hchan]
    simp [RegisterPendingRequest, insertPending, erasePending, hempty]

/-- C9 witness: registering and delivering `B1` on the empty manager. -/
theorem register_then_deliver_once_witness :
    (SendCallbackResponse (RegisterPendingRequest ⟨[], [], 0, [sampleRow]⟩ "T1" "B1" 1).1
        "B1" { Success := true, Message := "ok" } 2).2 = true ∧
    chanLookup (SendCallbackResponse
        (RegisterPendingRequest ⟨[], [], 0, [sampleRow]⟩ "T1" "B1" 1).1
        "B1" { Success := true, Message := "ok" } 2).1.chans
        (RegisterPendingRequest ⟨[], [], 0, [sampleRow]⟩ "T1" "B1" 1).2 =
      some (ChanState.closedFull { Success := true, Message := "ok" }) ∧
    (SendCallbackResponse (RegisterPendingRequest ⟨[], [], 0, [sampleRow]⟩ "T1" "B1" 1).1
        "B1" { Success := true, Message := "ok" } 2).1.pendingByBlockId = [] :=
  register_then_deliver_once ⟨[], [], 0, [sampleRow]⟩ "T1" "B1"
    { Success := true, Message := "ok" } 1 2 rfl

theorem updateTransferStatus_ok_shape (db : List TransferStatus) (rid : String)
    (u : StatusUpdates) (now : Nat) (d : List TransferStatus)
    (h : UpdateTransferStatus db rid u now = Except.ok d) :
    d = db.map fun r => if r.RequestID == rid then applyUpdates u now r else r := by
  simp only [UpdateTransferStatus] at h
  by_cases ha : db.any (fun r => r.RequestID == rid)
  · rw [if_pos ha] at h
    exact (Except.ok.inj h).symm
  · rw [if_neg ha] at h
    exact absurd h (by simp)

theorem framePreserved_refl (r : TransferStatus) : FramePreserved r r := by
  unfold FramePreserved
  simp

theorem framePreserved_applyUpdates (u : StatusUpdates) (now : Nat) (r : TransferStatus)
    (hb : u.block_id = none) : FramePreserved r (applyUpdates u now r) := by
  obtain ⟨h1, h2, h3, h4, h5, h6, _, _, h9, _, h11, _⟩ := applyUpdates_fields u now r
  exact ⟨h1, by rw [h2, hb]; rfl, h3, h4, h5, h6, h9, h11⟩

theorem frame_map_update (db : List TransferStatus) (rid : String) (u : StatusUpdates)
    (now : Nat) (hb : u.block_id = none) (i : Nat) (r : TransferStatus)
    (h : db[i]? = some r) :
    ∃ r2, (db.map fun x => if x.RequestID == rid then applyUpdates u now x else x)[i]? =
        some r2 ∧ FramePreserved r r2 := by
  refine ⟨if r.RequestID == rid then applyUpdates u now r else r, ?_, ?_⟩
  · rw [List.getElem?_map, h]
    rfl
  · by_cases hr : r.RequestID = rid
    · simp only [hr, beq_self_eq_true, if_true]
      exact framePreserved_applyUpdates u now r hb
    · have : (r.RequestID == rid) = false := by simp [hr]
      simp only [this, Bool.false_eq_true, if_false]
      exact framePreserved_refl r

theorem sendCallbackResponse_db_cases (s : TransferManager) (bid : String)
    (response : CallbackResponse) (now : Nat) :
    (SendCallbackResponse s bid response now).1.db = s.db ∨
    ∃ rid, (SendCallbackResponse s bid response now).1.db =
      s.db.map fun r => if r.RequestID == rid then
        applyUpdates (callbackUpdates response) now r else r := by
  cases hl : lookupPending s.pendingByBlockId bid with
  | some req =>
      cases hu : UpdateTransferStatus s.db req.TransactionID (callbackUpdates response) now with
      | ok d =>
          right
          refine ⟨req.TransactionID, ?_⟩
          rw [sendCallbackResponse_db_entry s bid response now req d hl hu]
          exact updateTransferStatus_ok_shape _ _ _ _ _ hu
      | error e =>
          left
          simp only [SendCallbackResponse, hl, hu]
          cases hc : chanLookup s.chans req.ResponseChan with
          | none => simp [hc]
          | some st => cases st <;> simp [hc]
  | none =>
      have hdb : (SendCallbackResponse s bid response now).1.db =
          updateStatusByBlockId s.db bid response now := by
        simp only [SendCallbackResponse, hl]
      rw [hdb]
      unfold updateStatusByBlockId
      cases hg2 : GetTransferStatusByBlockId s.db bid with
      | error e => left; rfl
      | ok status =>
          dsimp only
          cases hu : UpdateTransferStatus s.db status.RequestID (callbackUpdates response) now with
          | ok d =>
              dsimp only
              right
              exact ⟨status.RequestID, updateTransferStatus_ok_shape _ _ _ _ _ hu⟩
          | error e =>
              dsimp only
              left
              rfl

theorem markTimeout_db_cases (s : TransferManager) (tid bid : String) (now : Nat) :
    (MarkTimeout s tid bid now).1.db = s.db ∨
    (MarkTimeout s tid bid now).1.db =
      s.db.map fun r => if r.RequestID == tid then
        applyUpdates
          { status := some "timeout",
            message :=
              some "Transfer confirmation timed out (blockchain may still be processing)" }
          now r else r := by
  cases hu : UpdateTransferStatus s.db tid
      { status := some "timeout",
        message :=
          some "Transfer confirmation timed out (blockchain may still be processing)" }
      now with
  | error e =>
      left
      simp only [MarkTimeout, hu]
  | ok d =>
      right
      have hshape := updateTransferStatus_ok_shape _ _ _ _ _ hu
      simp only [MarkTimeout, hu]
      cases hl : lookupPending s.pendingByBlockId bid with
      | some req => simpa using hshape
      | none => simpa using hshape

/-- C6 counterexample: row `T1` is terminal (`success`), yet a late failed
callback for its blockID `B1` (no pending entry, fallback path) rewrites the
row's status to `failed` — mutating a field other than `updated_at` after a
terminal state was reached. -/
theorem terminal_row_overwritten_cex :
    ({ sampleRow with Status := "success" } : TransferStatus).Status = "success" ∧
    GetTransferStatus
        (SendCallbackResponse ⟨[], [], 0, [{ sampleRow with Status := "success" }]⟩
          "B1" { Success := false, Message := "late duplicate", Error := "dup" } 5).1.db
        "T1" =
      Except.ok ⟨"T1", "B1", ["a1"], "did:user", "did:admin", 10, "failed",
        "late duplicate", "hash1", "dup", 0, 5⟩ ∧
    ("failed" : String) ≠ "success" := by
  refine ⟨rfl, by rfl, by decide⟩

/-- C6 (amended): the code enforces no terminal-state guard — a later
callback or timeout may rewrite `status`, `message` and `error_details` of a
row that already reached `success`/`failed` (see the counterexample); what
does hold is the frame: `SendCallbackResponse` and `MarkTimeout` never
change any row field outside status/message/error_details/updated_at, and
`MarkTimeout` also leaves `error_details` unchanged. -/
theorem callback_timeout_field_frame (s : TransferManager) (bid tid : String)
    (response : CallbackResponse) (now : Nat) :
    (∀ (i : Nat) (r : TransferStatus), s.db[i]? = some r →
      ∃ r2, ((SendCallbackResponse s bid response now).1.db)[i]? = some r2 ∧
        FramePreserved r r2) ∧
    (∀ (i : Nat) (r : TransferStatus), s.db[i]? = some r →
      ∃ r2, ((MarkTimeout s tid bid now).1.db)[i]? = some r2 ∧ FramePreserved r r2) := by
  constructor
  · intro i r h
    rcases sendCallbackResponse_db_cases s bid response now with hdb | ⟨rid, hdb⟩
    · exact ⟨r, by rw [hdb]; exact h, framePreserved_refl r⟩
    · rw [hdb]
      have hb : (callbackUpdates response).block_id = none :=
        (callbackUpdates_fields response).2.2.1
      exact frame_map_update s.db rid (callbackUpdates response) now hb i r h
  · intro i r h
    rcases markTimeout_db_cases s tid bid now with hdb | hdb
    · exact ⟨r, by rw [hdb]; exact h, framePreserved_refl r⟩
    · rw [hdb]
      exact frame_map_update s.db tid _ now rfl i r h

/-- C6 witness: the frame at a concrete state — the success-callback keeps
row `T1`'s identity fields. -/
theorem callback_timeout_field_frame_witness :
    ∃ r2, ((SendCallbackResponse ⟨[], [], 0, [sampleRow]⟩ "B1"
        { Success := true, Message := "ok" } 5).1.db)[0]? = some r2 ∧
      FramePreserved sampleRow r2 :=
  (callback_timeout_field_frame ⟨[], [], 0, [sampleRow]⟩ "B1" "T1"
    { Success := true, Message := "ok" } 5).1 0 sampleRow rfl

theorem pending_chan_ne (l : List (String × PendingRequest))
    (h : l.Pairwise (fun p q => p.2.ResponseChan ≠ q.2.ResponseChan))
    (p q : String × PendingRequest) (hp : p ∈ l) (hq : q ∈ l) (hne : p ≠ q) :
    p.2.ResponseChan ≠ q.2.ResponseChan :=
  List.Pairwise.forall (fun _ _ hab => Ne.symm hab) h hp hq hne

theorem pending_key_ne (l : List (String × PendingRequest))
    (h : l.Pairwise (fun p q => p.1 ≠ q.1))
    (p q : String × PendingRequest) (hp : p ∈ l) (hq : q ∈ l) (hne : p ≠ q) :
    p.1 ≠ q.1 :=
  List.Pairwise.forall (fun _ _ hab => Ne.symm hab) h hp hq hne

/-- C7: one reaper cycle at time `now` (the ticker fires every `reapPeriod`)
removes every entry whose age exceeds the `staleTTL` and closes its slot
without a value, leaves younger entries and their slots untouched, and hence
after the cycle every surviving entry's age is at most the TTL — so at any
instant `u` at most one reap period later, no entry's age exceeds
TTL + one reap period. -/
theorem cleanupStaleRequests_reaper_spec (s : TransferManager) (now u : Nat)
    (hg : GoodRegistry s) :
    (∀ p ∈ s.pendingByBlockId, staleAt now p.2 = true →
      lookupPending (cleanupStaleRequests s now).pendingByBlockId p.1 = none ∧
      chanLookup (cleanupStaleRequests s now).chans p.2.ResponseChan =
        some ChanState.closed) ∧
    (∀ p ∈ s.pendingByBlockId, staleAt now p.2 = false →
      lookupPending (cleanupStaleRequests s now).pendingByBlockId p.1 = some p.2 ∧
      chanLookup (cleanupStaleRequests s now).chans p.2.ResponseChan =
        some ChanState.empty) ∧
    (∀ p ∈ (cleanupStaleRequests s now).pendingByBlockId,
      now - p.2.CreatedAt ≤ staleTTL) ∧
    (u ≤ now + reapPeriod →
      ∀ p ∈ (cleanupStaleRequests s now).pendingByBlockId,
        u - p.2.CreatedAt ≤ staleTTL + reapPeriod) := by
  obtain ⟨hch, hnext, hpc, hpk⟩ := hg
  refine ⟨?_, ?_, ?_, ?_⟩
  · intro p hp hstale
    constructor
    · rw [lookupPending_eq_none_iff]
      intro q hq
      simp only [cleanupStaleRequests] at hq
      have hqf := List.mem_filter.mp hq
      by_cases hqp : q = p
      · subst hqp
        rw [hstale] at hqf
        simp at hqf
      · exact pending_key_ne _ hpk q p hqf.1 hp hqp
    · simp only [cleanupStaleRequests]
      rw [chanLookup_map_closeIf s.chans
        (fun c => s.pendingByBlockId.any fun q => staleAt now q.2 && q.2.ResponseChan == c)
        p.2.ResponseChan]
      have hb : s.pendingByBlockId.any
          (fun q => staleAt now q.2 && q.2.ResponseChan == p.2.ResponseChan) = true := by
        rw [List.any_eq_true]
        exact ⟨p, hp, by simp [hstale]⟩
      rw [hb, if_pos rfl, hch p hp]
      rfl
  · intro p hp hfresh
    constructor
    · simp only [cleanupStaleRequests]
      have hmem : p ∈ s.pendingByBlockId.filter (fun q => !(staleAt now q.2)) :=
        List.mem_filter.mpr ⟨hp, by simp [hfresh]⟩
      exact lookupPending_of_mem_nodup _ p (hpk.sublist (List.filter_sublist _)) hmem
    · simp only [cleanupStaleRequests]
      rw [chanLookup_map_closeIf s.chans
        (fun c => s.pendingByBlockId.any fun q => staleAt now q.2 && q.2.ResponseChan == c)
        p.2.ResponseChan]
      have hb : s.pendingByBlockId.any
          (fun q => staleAt now q.2 && q.2.ResponseChan == p.2.ResponseChan) = false := by
        rw [List.any_eq_false]
        intro q hq
        simp only [Bool.and_eq_true, beq_iff_eq, not_and]
        intro hqs
        by_cases hqp : q = p
        · subst hqp
          rw [hqs] at hfresh
          exact absurd hfresh (by simp)
        · exact pending_chan_ne _ hpc q p hq hp hqp
      rw [hb]
      simpa using hch p hp
  · intro p hp
    simp only [cleanupStaleRequests] at hp
    have hpf := List.mem_filter.mp hp
    have : staleAt now p.2 = false := by
      rcases hb : staleAt now p.2 with _ | _
      · rfl
      · rw [hb] at hpf
        simpa using hpf.2
    simp only [staleAt, decide_eq_false_iff_not, not_lt] at this
    exact this
  · intro hu p hp
    simp only [cleanupStaleRequests] at hp
    have hpf := List.mem_filter.mp hp
    have hfr : staleAt now p.2 = false := by
      rcases hb : staleAt now p.2 with _ | _
      · rfl
      · rw [hb] at hpf
        simpa using hpf.2
    simp only [staleAt, decide_eq_false_iff_not, not_lt] at hfr
    omega

/-- C7 witness: at `now = 1000` the reaper closes and evicts the entry
created at 0 (age 1000 > TTL 600) and leaves the entry created at 900
(age 100) untouched. -/
theorem cleanupStaleRequests_reaper_spec_witness :
    (lookupPending (cleanupStaleRequests
        ⟨[("B1", ⟨"T1", 0, 0⟩), ("B2", ⟨"T2", 1, 900⟩)],
         [(0, ChanState.empty), (1, ChanState.empty)], 2, []⟩ 1000).pendingByBlockId
      "B1" = none ∧
     chanLookup (cleanupStaleRequests
        ⟨[("B1", ⟨"T1", 0, 0⟩), ("B2", ⟨"T2", 1, 900⟩)],
         [(0, ChanState.empty), (1, ChanState.empty)], 2, []⟩ 1000).chans 0 =
      some ChanState.closed) ∧
    (lookupPending (cleanupStaleRequests
        ⟨[("B1", ⟨"T1", 0, 0⟩), ("B2", ⟨"T2", 1, 900⟩)],
         [(0, ChanState.empty), (1, ChanState.empty)], 2, []⟩ 1000).pendingByBlockId
      "B2" = some ⟨"T2", 1, 900⟩ ∧
     chanLookup (cleanupStaleRequests
        ⟨[("B1", ⟨"T1", 0, 0⟩), ("B2", ⟨"T2", 1, 900⟩)],
         [(0, ChanState.empty), (1, ChanState.empty)], 2, []⟩ 1000).chans 1 =
      some ChanState.empty) := by
  constructor
  · exact (cleanupStaleRequests_reaper_spec
      ⟨[("B1", ⟨"T1", 0, 0⟩), ("B2", ⟨"T2", 1, 900⟩)],
       [(0, ChanState.empty), (1, ChanState.empty)], 2, []⟩ 1000 1100 (by decide)).1
      ("B1", ⟨"T1", 0, 0⟩) (by decide) (by decide)
  · exact (cleanupStaleRequests_reaper_spec
      ⟨[("B1", ⟨"T1", 0, 0⟩), ("B2", ⟨"T2", 1, 900⟩)],
       [(0, ChanState.empty), (1, ChanState.empty)], 2, []⟩ 1000 1100 (by decide)).2.1
      ("B2", ⟨"T2", 1, 900⟩) (by decide) (by decide)

theorem sendCallbackResponse_pending_cases (s : TransferManager) (bid : String)
    (response : CallbackResponse) (now : Nat) :
    (SendCallbackResponse s bid response now).1.pendingByBlockId = s.pendingByBlockId ∨
    (SendCallbackResponse s bid response now).1.pendingByBlockId =
      erasePending s.pendingByBlockId bid := by
  cases hl : lookupPending s.pendingByBlockId bid with
  | none =>
      left
      simp only [SendCallbackResponse, hl]
  | some req =>
      right
      simp only [SendCallbackResponse, hl]
      cases hc : chanLookup s.chans req.ResponseChan with
      | none => simp [hc]
      | some st => cases st <;> simp [hc]

theorem markTimeout_pending_cases (s : TransferManager) (tid bid : String) (now : Nat) :
    (MarkTimeout s tid bid now).1.pendingByBlockId = s.pendingByBlockId ∨
    (MarkTimeout s tid bid now).1.pendingByBlockId =
      erasePending s.pendingByBlockId bid := by
  cases hu : UpdateTransferStatus s.db tid
      { status := some "timeout",
        message :=
          some "Transfer confirmation timed out (blockchain may still be processing)" }
      now with
  | error e =>
      left
      simp only [MarkTimeout, hu]
  | ok d =>
      simp only [MarkTimeout, hu]
      cases hl : lookupPending s.pendingByBlockId bid with
      | some req =>
          right
          simp [hl]
      | none =>
          left
          simp [hl]

theorem runRemoval_pending_subset (s : TransferManager) (bid : String) (now : Nat)
    (op : RemovalOp) (p : String × PendingRequest)
    (hp : p ∈ (runRemoval bid now op s).pendingByBlockId) : p ∈ s.pendingByBlockId := by
  cases op with
  | deliver response =>
      simp only [runRemoval] at hp
      rcases sendCallbackResponse_pending_cases s bid response now with h | h
      · rw [h] at hp
        exact hp
      · rw [h] at hp
        exact List.mem_of_mem_filter hp
  | cancel tid =>
      simp only [runRemoval] at hp
      rcases markTimeout_pending_cases s tid bid now with h | h
      · rw [h] at hp
        exact hp
      · rw [h] at hp
        exact List.mem_of_mem_filter hp
  | reap =>
      simp only [runRemoval, cleanupStaleRequests] at hp
      exact List.mem_of_mem_filter hp

theorem removal_noop_of_absent (s1 : TransferManager) (bid : String) (cid : Nat)
    (habs : lookupPending s1.pendingByBlockId bid = none)
    (hchan : ∀ p ∈ s1.pendingByBlockId, p.2.ResponseChan ≠ cid)
    (op : RemovalOp) (now : Nat) :
    lookupPending (runRemoval bid now op s1).pendingByBlockId bid = none ∧
    chanLookup (runRemoval bid now op s1).chans cid = chanLookup s1.chans cid := by
  cases op with
  | deliver response =>
      constructor
      · simp [runRemoval, SendCallbackResponse, habs]
      · simp [runRemoval, SendCallbackResponse, habs]
  | cancel tid =>
      cases hu : UpdateTransferStatus s1.db tid
          { status := some "timeout",
            message :=
              some "Transfer confirmation timed out (blockchain may still be processing)" }
          now with
      | error e => constructor <;> simp [runRemoval, MarkTimeout, hu, habs]
      | ok d => constructor <;> simp [runRemoval, MarkTimeout, hu, habs]
  | reap =>
      constructor
      · simp only [runRemoval, cleanupStaleRequests]
        exact lookupPending_filter_none _ _ _ habs
      · simp only [runRemoval, cleanupStaleRequests]
        rw [chanLookup_map_closeIf s1.chans
          (fun c => s1.pendingByBlockId.any fun q => staleAt now q.2 && q.2.ResponseChan == c)
          cid]
        have hb : s1.pendingByBlockId.any
            (fun q => staleAt now q.2 && q.2.ResponseChan == cid) = false := by
          rw [List.any_eq_false]
          intro q hq
          simp only [Bool.and_eq_true, beq_iff_eq, not_and]
          intro _
          exact hchan q hq
        rw [hb]
        simp

/-- C5: with the registry mutex making each removal path one atomic step,
two invocations on the same registered blockID serialize in some order, and
once the first one (`op1`, any of deliver / cancel / reap) has removed the
entry, the second (`op2`, any of the three, with arbitrary parameters and
time) neither finds an entry to remove nor touches the entry's delivery
slot: at most one removal path wins and signals the slot, the loser is a
no-op. -/
theorem removal_paths_mutually_exclusive (s : TransferManager) (bid : String)
    (req : PendingRequest) (now1 now2 : Nat) (op1 op2 : RemovalOp)
    (hg : GoodRegistry s)
    (hreq : lookupPending s.pendingByBlockId bid = some req)
    (hwin : lookupPending (runRemoval bid now1 op1 s).pendingByBlockId bid = none) :
    lookupPending
        (runRemoval bid now2 op2 (runRemoval bid now1 op1 s)).pendingByBlockId bid =
      none ∧
    chanLookup (runRemoval bid now2 op2 (runRemoval bid now1 op1 s)).chans
        req.ResponseChan =
      chanLookup (runRemoval bid now1 op1 s).chans req.ResponseChan := by
  apply removal_noop_of_absent _ bid req.ResponseChan hwin _ op2 now2
  intro p hp
  have hpmem : p ∈ s.pendingByBlockId := runRemoval_pending_subset s bid now1 op1 p hp
  have hpkey : p.1 ≠ bid := by
    rw [lookupPending_eq_none_iff] at hwin
    exact hwin p hp
  have hbidmem : (bid, req) ∈ s.pendingByBlockId := lookupPending_mem _ _ _ hreq
  have hne : p ≠ (bid, req) := fun hc => hpkey (by rw [hc])
  exact pending_chan_ne _ hg.2.2.1 p (bid, req) hpmem hbidmem hne

/-- C5 witness: deliver wins on `B1`, then a cancel (timeout) for the same
blockID is a no-op on the entry and its slot. -/
theorem removal_paths_mutually_exclusive_witness :
    lookupPending
        (runRemoval "B1" 6 (RemovalOp.cancel "T1")
          (runRemoval "B1" 5 (RemovalOp.deliver { Success := true, Message := "ok" })
            ⟨[("B1", ⟨"T1", 0, 0⟩)], [(0, ChanState.empty)], 1, [sampleRow]⟩)).pendingByBlockId
        "B1" = none ∧
    chanLookup
        (runRemoval "B1" 6 (RemovalOp.cancel "T1")
          (runRemoval "B1" 5 (RemovalOp.deliver { Success := true, Message := "ok" })
            ⟨[("B1", ⟨"T1", 0, 0⟩)], [(0, ChanState.empty)], 1, [sampleRow]⟩)).chans 0 =
      chanLookup
        (runRemoval "B1" 5 (RemovalOp.deliver { Success := true, Message := "ok" })
          ⟨[("B1", ⟨"T1", 0, 0⟩)], [(0, ChanState.empty)], 1, [sampleRow]⟩).chans 0 :=
  removal_paths_mutually_exclusive
    ⟨[("B1", ⟨"T1", 0, 0⟩)], [(0, ChanState.empty)], 1, [sampleRow]⟩
    "B1" ⟨"T1", 0, 0⟩ 5 6 (RemovalOp.deliver { Success := true, Message := "ok" })
    (RemovalOp.cancel "T1") (by decide) (by decide) (by decide)
